import Mathlib

/-!
Shallow embedding of `check_pre_commit_config_frozen.py` (the linter that
checks and repairs `frozen: <tag>` comments in `.pre-commit-config.yaml`).

Modelling conventions:
* Python strings are Lean `String`s (lists of characters); character classes
  of the regexes (`\d`, `\s`, `.`) are modelled at their ASCII meaning, and
  `str.lower` is modelled as the ASCII case mapping.
* The two git-backed resolver operations (`get_tags`, `get_hash_for`) are an
  oracle (`Git`) whose calls can fail; a failure models the
  `subprocess.CalledProcessError` raised by `cmd_output` when git exits
  nonzero (the linter itself has no handler for it, so in the embedding it
  propagates through `Except`).
* The ruamel.yaml objects are reduced to the fields the linter reads and
  writes: repo url, rev string, rev source position, and the optional
  end-of-line comment token on the `rev` key (its raw text and column).
* `Complain` objects are mutated in the source after being appended to the
  collected list (the list holds an alias).  The embedding computes the final
  state of each complain first and appends that final state, which yields the
  same resulting list.
-/

-- ## Character-level helpers (ASCII models of Python semantics)

/-- ASCII model of Python's `\s` class: space, tab, newline, carriage
return, vertical tab, form feed. -/
def isPySpace (c : Char) : Bool :=
  c == ' ' || c == '\t' || c == '\n' || c == '\r' || c == '\x0b' || c == '\x0c'

/-- ASCII model of Python's `str.lower` on one character: maps codepoints
65-90 (`A`-`Z`) to 97-122 (`a`-`z`) and keeps everything else. -/
def pyLowerChar (c : Char) : Char :=
  if 65 ≤ c.toNat ∧ c.toNat ≤ 90 then Char.ofNat (c.toNat + 32) else c

/-- Model of Python's `str.lower`. -/
def pyLower (s : String) : String :=
  String.mk (s.data.map pyLowerChar)

/-- Model of Python's `str.strip()`: drop leading and trailing whitespace. -/
def pyStrip (s : String) : String :=
  String.mk (((s.data.dropWhile isPySpace).reverse.dropWhile isPySpace).reverse)

/-- One character of the regex class `[\dabcdef]` (line 155 of the source):
a decimal digit (codepoints 48-57, i.e. `0`-`9`) or one of the six lowercase
hex letters (codepoints 97-102, i.e. `a`-`f`). -/
def isHexLower (c : Char) : Bool :=
  decide ((48 ≤ c.toNat ∧ c.toNat ≤ 57) ∨ (97 ≤ c.toNat ∧ c.toNat ≤ 102))

/-- Python substring containment `needle in hay` for character lists. -/
def listContainsSub (needle : List Char) : List Char → Bool
  | [] => needle.isEmpty
  | c :: rest => needle.isPrefixOf (c :: rest) || listContainsSub needle rest

/-- Python's `needle in hay` on strings (substring containment). -/
def pyIn (needle hay : String) : Bool :=
  listContainsSub needle.data hay.data

/-- Model of Python's `str.format` with named placeholders, as used with the
`Rule` message templates: scan the template, substituting `{name}` by the
bound value.  (All call sites of the source supply exactly the names that
occur in the template, so missing names are unreachable.) -/
def pyFormatGo (args : List (String × String)) : Option (List Char) → List Char → List Char
  | none, [] => []
  | none, c :: rest =>
      if c = '\x7b' then pyFormatGo args (some []) rest
      else c :: pyFormatGo args none rest
  | some acc, [] => ((args.lookup (String.mk acc.reverse)).getD "").data
  | some acc, c :: rest =>
      if c = '\x7d' then
        ((args.lookup (String.mk acc.reverse)).getD "").data ++ pyFormatGo args none rest
      else pyFormatGo args (some (c :: acc)) rest

/-- `template.format(**kwargs)`. -/
def pyFormat (t : String) (args : List (String × String)) : String :=
  String.mk (pyFormatGo args none t.data)

-- ## RevisionClassifier (source lines 148-208)

/-- `SHA1_LENGTH = 160` (source line 149). -/
def SHA1_LENGTH : Nat := 160

/-- `MIN_HASH_LENGTH = 7` (source line 152). -/
def MIN_HASH_LENGTH : Nat := 7

/-- `is_hash` (source lines 159-178): `bool(pattern_abbrev_hash.fullmatch(rev.lower()))`
where `pattern_abbrev_hash = re.compile(r"[\dabcdef]+")`.  A full match of a
one-or-more character class is: nonempty and every character in the class. -/
def is_hash (rev : String) : Bool :=
  !(pyLower rev).data.isEmpty && (pyLower rev).data.all isHexLower

/-- `is_short_hash` as computed at source line 329:
`ih and MIN_HASH_LENGTH <= len(rev) < SHA1_LENGTH / 4` (the division is 40). -/
def is_short_hash (rev : String) : Bool :=
  is_hash rev && (decide (MIN_HASH_LENGTH ≤ rev.length) && decide (rev.length < SHA1_LENGTH / 4))

/-- `is_full_hash` as computed at source line 330: `len(rev) == SHA1_LENGTH / 4`.
Note the source does NOT require the string to be hex here. -/
def is_full_hash (rev : String) : Bool :=
  rev.length == SHA1_LENGTH / 4

/-- The literal ` frozen: ` of `regex_frozen_comment` (source line 184). -/
def frozenMarker : List Char := [' ', 'f', 'r', 'o', 'z', 'e', 'n', ':', ' ']

/-- Matching of the optional trailing group `( .*)?` of `regex_frozen_comment`
against an entire remainder: either the remainder is empty (group absent,
group value `None`) or it starts with a space and the rest contains no
newline (`.` does not match `\n`); anything else is a mismatch. -/
def matchNoteOpt : List Char → Option (Option String)
  | [] => some none
  | c :: rest =>
      if c = ' ' then
        if rest.all (fun x => x != '\n') then some (some (String.mk (' ' :: rest)))
        else none
      else none

/-- `process_frozen_comment` (source lines 190-208):
`pattern_frozen_comment.fullmatch(comment)` for
`#( frozen: (?P<rev>\S+))?(?P<note> .*)?`, returning `(match["rev"], match["note"])`
(each component `None` when its group did not participate), or `None` when
there is no full match.

The regex engine first tries the ` frozen: ` group with a greedy `\S+`; a
shorter `\S+` can never rescue a failed match (the character after a shorter
token is still a non-space, so neither `( .*)?` alternative can match), so
the only backtracking point is dropping the ` frozen: ` group entirely. -/
def process_frozen_comment (comment : String) : Option (Option String × Option String) :=
  match comment.data with
  | [] => none
  | c :: t =>
    if c = '#' then
      let g1 : Option (Option String × Option String) :=
        if frozenMarker.isPrefixOf t then
          let u := t.drop frozenMarker.length
          let rev := u.takeWhile (fun x => !isPySpace x)
          let r := u.dropWhile (fun x => !isPySpace x)
          if rev.isEmpty then none
          else
            match matchNoteOpt r with
            | some note => some (some (String.mk rev), note)
            | none => none
        else none
      match g1 with
      | some res => some res
      | none =>
        match matchNoteOpt t with
        | some note => some ((none : Option String), note)
        | none => none
    else none

/-- `comment_template = "frozen: {rev}{note}"` (source line 187). -/
def comment_template : String := "frozen: {rev}{note}"

-- ## RuleEngine (source lines 211-243)

/-- `Rule` (source lines 211-240): the closed enumeration of diagnostics. -/
inductive Rule where
  | FORCE_FREEZE
  | NO_ABBREV
  | FORCE_UNFREEZE
  | MISSING_FROZEN_COMMENT
  | EXCESS_FROZEN_COMMENT
  | CHECK_COMMENTED_TAG
deriving DecidableEq, Repr, Fintype

/-- The one-character code of each rule (its `value`/`code` in the source). -/
def Rule.value : Rule → String
  | .FORCE_FREEZE => "f"
  | .NO_ABBREV => "a"
  | .FORCE_UNFREEZE => "u"
  | .MISSING_FROZEN_COMMENT => "m"
  | .EXCESS_FROZEN_COMMENT => "e"
  | .CHECK_COMMENTED_TAG => "t"

/-- The message template of each rule (source lines 214-233). -/
def Rule.template : Rule → String
  | .FORCE_FREEZE => "Unfrozen revision: {rev}"
  | .NO_ABBREV => "A abbreviated hash is specified for rev: {rev}"
  | .FORCE_UNFREEZE => "Frozen revision: {rev}"
  | .MISSING_FROZEN_COMMENT => "Missing comment specifying frozen version"
  | .EXCESS_FROZEN_COMMENT => "Although rev isn\x27t frozen the comment says so: {comment}"
  | .CHECK_COMMENTED_TAG => "Tag doesn\x27t match frozen rev: {frozen}"

/-- `Complain` (source lines 246-254). -/
structure Complain where
  file : String
  line : Nat
  column : Nat
  type : Rule
  message : String
  fixable : Bool
  fixed : Bool := false
deriving DecidableEq, Repr

-- ## The external git oracle (source lines 65-139)

/-- A failing git subprocess: `cmd_output` raises `subprocess.CalledProcessError`
when the command exits nonzero (source lines 77-80); nothing in the linter
catches it (the source even carries a `TODO catch git errors`). -/
inductive GitErr where
  | processError
deriving DecidableEq, Repr

/-- Oracle for the two repository queries, keyed by `(repo_url, rev)`:
`get_tags` (source lines 108-130) and `get_hash_for` (source lines 133-139). -/
structure Git where
  getTags : String → String → Except GitErr (List String)
  getHashFor : String → String → Except GitErr String

-- ## The yaml entry as the linter sees it

/-- The end-of-line comment token ruamel attaches to the `rev` key:
`repo_yaml.ca.items["rev"][2]`, with its raw text and source column. -/
structure CommentTok where
  value : String
  column : Nat
deriving DecidableEq, Repr

/-- One element of the `repos` sequence, reduced to the fields `lint_repo`
reads and writes: `repo`, `rev` (with its position) and the optional
end-of-line comment on `rev`. -/
structure RepoYaml where
  repoUrl : String
  rev : String
  line : Nat
  column : Nat
  comment : Option CommentTok
deriving DecidableEq, Repr

/-- ruamel's `yaml_add_eol_comment(text, "rev")`: prepends `# ` when the text
does not already start with `#` and installs the token as the (only)
end-of-line comment of the `rev` key.  The column assigned by ruamel comes
from the existing layout; it is modelled as the column of the comment being
replaced (or of the rev itself when there was none) — no linter rule reads
the column of a rewritten comment. -/
def yaml_add_eol_comment (ry : RepoYaml) (text : String) : RepoYaml :=
  let value := if text.data.head? = some '#' then text else "# " ++ text
  let col := match ry.comment with
    | some c => c.column
    | none => ry.column
  { ry with comment := some { value := value, column := col } }

-- ## Linter (source lines 257-450)

/-- The linter configuration: the enabled-rule string `rules` and the
fix-selection string `fix` (one-character codes, tested by substring). -/
structure Linter where
  rules : String
  fix : String
deriving DecidableEq, Repr

/-- `Linter.enabled` on a `Rule` (source lines 278-280):
`complain_or_rule.value in self.rules`. -/
def Linter.enabledRule (L : Linter) (r : Rule) : Bool :=
  pyIn r.value L.rules

/-- `Linter.should_fix` on a `Rule` (source line 287):
`self.enabled(rule) and rule.value in self.fix`. -/
def Linter.shouldFixRule (L : Linter) (r : Rule) : Bool :=
  L.enabledRule r && pyIn r.value L.fix

/-- `Linter.should_fix` on a `Complain` (source line 289):
`complain.fixable and self.should_fix(complain.type)`. -/
def Linter.shouldFixComplain (L : Linter) (c : Complain) : Bool :=
  c.fixable && L.shouldFixRule c.type

/-- The `Complain` constructed by `Linter.complain` (source lines 306-307):
message rendered from the rule's template with the call's keyword
arguments; `fixed` starts out `False`. -/
def Linter.mkComplain (L : Linter) (file : String) (t : Rule) (line column : Nat)
    (fixable : Bool) (args : List (String × String)) : Complain :=
  { file := file, line := line, column := column, type := t,
    message := pyFormat t.template args, fixable := fixable, fixed := false }

/-- The append performed by `Linter.complain` (source lines 309-310): the
complain joins the collected list only when its rule is enabled. -/
def Linter.addIfEnabled (L : Linter) (cs : List Complain) (c : Complain) : List Complain :=
  if L.enabledRule c.type then cs ++ [c] else cs

/-- `Linter.select_best_tag` (source lines 269-276): Python's
`min(iterable, key=len, default=None)` keeps the first element whose length
attains the minimum. -/
def minByLen : List String → Option String
  | [] => none
  | s :: rest =>
    match minByLen rest with
    | none => some s
    | some m => if m.length < s.length then some m else some s

/-- The pure selection of `Linter.select_best_tag` over an already fetched
tag list: the `or` falls through to the overall minimum exactly when no tag
contains a dot (a dotted tag is a nonempty string, hence truthy). -/
def selectBest (tags : List String) : Option String :=
  match minByLen (tags.filter (fun s => s.data.contains '.')) with
  | some t => some t
  | none => minByLen tags

/-- `Linter.select_best_tag` (source lines 269-276), including the
`get_tags` call. -/
def Linter.select_best_tag (git : Git) (repo_url rev : String) :
    Except GitErr (Option String) := do
  let tags ← git.getTags repo_url rev
  pure (selectBest tags)

/-- The comment parse of `lint_repo` (source lines 318-325): the pair
`(comment_rev, comment_note)` after `comment_note = comment_note or ""`.
When the comment does not match the grammar the whole raw comment text
becomes the note. -/
def parseCommentInfo : Option CommentTok → Option String × String
  | none => (none, "")
  | some cy =>
    match process_frozen_comment (pyStrip cy.value) with
    | some (r, n) => (r, n.getD "")
    | none => (none, cy.value)

/-- The column used by the annotation complains (source lines 361 and 377):
the comment token's column when a token exists, else the rev's column. -/
def commentColOf (ry : RepoYaml) : Nat :=
  match ry.comment with
  | some cy => cy.column
  | none => ry.column

/-- Source lines 332-333: the `NO_ABBREV` complain for an abbreviated hash
(never fixable). -/
def Linter.stepNoAbbrev (L : Linter) (file rev : String) (line column : Nat)
    (ish : Bool) : List Complain :=
  if ish then
    L.addIfEnabled [] (L.mkComplain file .NO_ABBREV line column false [("rev", rev)])
  else []

/-- Source lines 335-352: the `FORCE_UNFREEZE` complain for a frozen hash,
fixable only for a full hash; when selected for fixing, replace the rev by
the best tag and downgrade both hash flags, or clear `fixable` when no tag
is found.  Returns the complain list, the (possibly rewritten) entry and
the two flags. -/
def Linter.stepUnfreeze (L : Linter) (git : Git) (file repo_url rev : String)
    (line column : Nat) (ish ifh : Bool) (cs : List Complain) (ry : RepoYaml) :
    Except GitErr (List Complain × RepoYaml × Bool × Bool) :=
  if ish || ifh then
    if L.shouldFixComplain (L.mkComplain file .FORCE_UNFREEZE line column ifh [("rev", rev)]) then
      Linter.select_best_tag git repo_url rev >>= fun tag =>
        match tag with
        | some t =>
            pure (L.addIfEnabled cs
                { L.mkComplain file .FORCE_UNFREEZE line column ifh [("rev", rev)] with
                  fixed := true },
              { ry with rev := t }, false, false)
        | none =>
            pure (L.addIfEnabled cs
                { L.mkComplain file .FORCE_UNFREEZE line column ifh [("rev", rev)] with
                  fixable := false },
              ry, ish, ifh)
    else
      pure (L.addIfEnabled cs
          (L.mkComplain file .FORCE_UNFREEZE line column ifh [("rev", rev)]),
        ry, ish, ifh)
  else pure (cs, ry, ish, ifh)

/-- Source lines 354-394 (the branch for a rev still counted as frozen):
`MISSING_FROZEN_COMMENT` when there is no `frozen:` comment (fixable only
for a full hash), else the `CHECK_COMMENTED_TAG` comparison against the
fetched tags; a complain selected for fixing rewrites the comment to
`frozen: <best tag><note>` or, with no tag found, is downgraded to not
fixable. -/
def Linter.stepFrozen (L : Linter) (git : Git) (file repo_url rev : String)
    (line commentCol : Nat) (ifh : Bool) (comment_rev : Option String)
    (comment_note : String) (cs : List Complain) (ry : RepoYaml) :
    Except GitErr (List Complain × RepoYaml) :=
  (match comment_rev with
   | none =>
       pure (some (L.mkComplain file .MISSING_FROZEN_COMMENT line commentCol ifh
         [("rev", rev)]))
   | some cr =>
       if ifh && L.enabledRule .CHECK_COMMENTED_TAG then
         git.getTags repo_url rev >>= fun tags =>
           if !(tags.contains cr) then
             pure (some (L.mkComplain file .CHECK_COMMENTED_TAG line commentCol true
               [("frozen", cr)]))
           else pure none
       else pure none) >>= fun comp =>
  match comp with
  | some c =>
    if L.shouldFixComplain c then
      Linter.select_best_tag git repo_url rev >>= fun tag =>
        match tag with
        | some t =>
            pure (L.addIfEnabled cs { c with fixed := true },
              yaml_add_eol_comment ry
                (pyFormat comment_template [("rev", t), ("note", comment_note)]))
        | none =>
            pure (L.addIfEnabled cs { c with fixable := false }, ry)
    else pure (L.addIfEnabled cs c, ry)
  | none => pure (cs, ry)

/-- Source lines 396-434 (the branch for an unfrozen rev): the
`FORCE_FREEZE` complain, fixable; selected for fixing it resolves the rev
to a hash, installs the hash as `rev` and the comment
`frozen: <original rev><note>`.  When `FORCE_FREEZE` is not enabled and a
`frozen:` comment is present, the `EXCESS_FROZEN_COMMENT` complain follows;
its fix keeps just the note or deletes the comment.  `origComment` is the
`comment_yaml` variable of the source: the token as it was read, before
any rewriting.  The pair threaded through the bind is `(ry1, comp1)`: the
entry and the final state of the `FORCE_FREEZE` complain. -/
def Linter.stepUnfrozen (L : Linter) (git : Git) (file repo_url rev : String)
    (line column : Nat) (comment_rev : Option String) (comment_note : String)
    (origComment : Option CommentTok) (cs : List Complain) (ry : RepoYaml) :
    Except GitErr (List Complain × RepoYaml) :=
  (if L.shouldFixComplain (L.mkComplain file .FORCE_FREEZE line column true [("rev", rev)]) then
     git.getHashFor repo_url rev >>= fun hash =>
       if hash ≠ "" then
         pure (yaml_add_eol_comment { ry with rev := hash }
             (pyFormat comment_template [("rev", rev), ("note", comment_note)]),
           { L.mkComplain file .FORCE_FREEZE line column true [("rev", rev)] with
             fixed := true })
       else
         pure (ry,
           { L.mkComplain file .FORCE_FREEZE line column true [("rev", rev)] with
             fixable := false })
   else pure (ry, L.mkComplain file .FORCE_FREEZE line column true [("rev", rev)])) >>=
  fun rc =>
  if !(L.enabledRule rc.2.type) then
    match comment_rev, origComment with
    | some _, some cy =>
      if L.shouldFixComplain (L.mkComplain file .EXCESS_FROZEN_COMMENT line
          (if cy.column ≠ 0 then cy.column else column) true
          [("comment", pyStrip cy.value)]) then
        pure (L.addIfEnabled (L.addIfEnabled cs rc.2)
            { L.mkComplain file .EXCESS_FROZEN_COMMENT line
                (if cy.column ≠ 0 then cy.column else column) true
                [("comment", pyStrip cy.value)] with fixed := true },
          if comment_note ≠ "" then yaml_add_eol_comment rc.1 comment_note
          else { rc.1 with comment := none })
      else
        pure (L.addIfEnabled (L.addIfEnabled cs rc.2)
            (L.mkComplain file .EXCESS_FROZEN_COMMENT line
              (if cy.column ≠ 0 then cy.column else column) true
              [("comment", pyStrip cy.value)]),
          rc.1)
    | _, _ => pure (L.addIfEnabled cs rc.2, rc.1)
    -- a `frozen:` comment can only have been parsed out of an existing
    -- comment token, so `comment_rev ≠ None` with no token is unreachable
  else pure (L.addIfEnabled cs rc.2, rc.1)

/-- `Linter.lint_repo` (source lines 313-434): classify the entry, emit the
diagnostics and apply the selected fixes, returning the collected complains
and the (possibly mutated) entry.  The tuple `st` threaded through the bind
is `(complains, entry, is_short_hash, is_full_hash)` after the
`FORCE_UNFREEZE` step (source line 349 may have downgraded the flags). -/
def Linter.lint_repo (L : Linter) (git : Git) (file : String) (repo_yaml : RepoYaml) :
    Except GitErr (List Complain × RepoYaml) :=
  L.stepUnfreeze git file repo_yaml.repoUrl repo_yaml.rev repo_yaml.line repo_yaml.column
      (is_short_hash repo_yaml.rev) (is_full_hash repo_yaml.rev)
      (L.stepNoAbbrev file repo_yaml.rev repo_yaml.line repo_yaml.column
        (is_short_hash repo_yaml.rev))
      repo_yaml >>= fun st =>
  if st.2.2.1 || st.2.2.2 then
    L.stepFrozen git file repo_yaml.repoUrl repo_yaml.rev repo_yaml.line
      (commentColOf repo_yaml) st.2.2.2 (parseCommentInfo repo_yaml.comment).1
      (parseCommentInfo repo_yaml.comment).2 st.1 st.2.1
  else
    L.stepUnfrozen git file repo_yaml.repoUrl repo_yaml.rev repo_yaml.line repo_yaml.column
      (parseCommentInfo repo_yaml.comment).1 (parseCommentInfo repo_yaml.comment).2
      repo_yaml.comment st.1 st.2.1

/-- `Linter.run` (source lines 436-450), with the yaml document abstracted
to its `repos` sequence (parsing and re-serialisation belong to the
external structured-document collaborator): every entry is linted in order
and the complains are collected in encounter order.  An uncaught git error
aborts the whole run, losing all complains. -/
def Linter.runRepos (L : Linter) (git : Git) (file : String) :
    List RepoYaml → Except GitErr (List Complain × List RepoYaml)
  | [] => pure ([], [])
  | ry :: rest =>
    L.lint_repo git file ry >>= fun p =>
    L.runRepos git file rest >>= fun q =>
    pure (p.1 ++ q.1, p.2 :: q.2)

-- ## Helper lemmas

/-- Bind reduction for a successful oracle call. -/
theorem exbind_ok {α β : Type} (a : α) (f : α → Except GitErr β) :
    (Except.ok a : Except GitErr α) >>= f = f a := rfl

/-- Bind reduction for a failing oracle call: the error propagates. -/
theorem exbind_error {α β : Type} (e : GitErr) (f : α → Except GitErr β) :
    (Except.error e : Except GitErr α) >>= f = Except.error e := rfl

/-- The monadic `pure` of the `Except` embedding is `Except.ok`. -/
theorem expure {α : Type} (a : α) : (pure a : Except GitErr α) = Except.ok a := rfl

/-- Characters compare like their codepoints. -/
theorem charLe_iff (a b : Char) : a ≤ b ↔ a.toNat ≤ b.toNat :=
  ⟨fun h => h, fun h => h⟩

/-- A string is nonempty exactly when its character list is. -/
theorem stringNe_iff (s : String) : s ≠ "" ↔ s.data ≠ [] := by
  constructor
  · intro h hc
    apply h
    cases s with
    | mk d => cases hc; rfl
  · intro h hc
    apply h
    rw [hc]

/-- The codepoint of the ASCII lowercase mapping. -/
theorem toNat_pyLowerChar (c : Char) :
    (pyLowerChar c).toNat =
      if 65 ≤ c.toNat ∧ c.toNat ≤ 90 then c.toNat + 32 else c.toNat := by
  unfold pyLowerChar
  split
  · rename_i h
    unfold Char.ofNat
    rw [dif_pos (Or.inl (by omega))]
    simp [Char.ofNatAux, Char.toNat, UInt32.toNat, UInt32.ofNat']
  · rfl

/-- The spec-side hexadecimal character class: `0`-`9`, `a`-`f`,
case-insensitively (so also `A`-`F`). -/
def specHexChar (c : Char) : Bool :=
  decide (('0' ≤ c ∧ c ≤ '9') ∨ ('a' ≤ c ∧ c ≤ 'f') ∨ ('A' ≤ c ∧ c ≤ 'F'))

/-- A character is in the class `[\dabcdef]` after lowercasing exactly when
it is a hexadecimal digit character, case-insensitively. -/
theorem isHexLower_pyLowerChar (c : Char) :
    isHexLower (pyLowerChar c) = specHexChar c := by
  unfold isHexLower specHexChar
  rw [toNat_pyLowerChar]
  simp only [decide_eq_decide, charLe_iff, Char.reduceToNat]
  split
  · omega
  · omega

/-- Characterisation of `is_hash`: nonempty and all characters
case-insensitively hexadecimal. -/
theorem is_hash_iff (s : String) :
    is_hash s = true ↔ s ≠ "" ∧ ∀ c ∈ s.data, specHexChar c = true := by
  have hdata : (pyLower s).data = s.data.map pyLowerChar := rfl
  unfold is_hash
  rw [hdata, stringNe_iff]
  simp only [Bool.and_eq_true, Bool.not_eq_true', List.isEmpty_eq_false,
    List.all_map, List.all_eq_true, Function.comp_apply, isHexLower_pyLowerChar]
  constructor
  · rintro ⟨h1, h2⟩
    exact ⟨by simpa using h1, h2⟩
  · rintro ⟨h1, h2⟩
    exact ⟨by simpa using h1, h2⟩

-- ## Claim C9

/-- Claim C9 counterexample: the rule enumeration does not have nine
members — `Rule` has exactly six inhabitants, so there is no set of nine
rule kinds. -/
theorem C9_counterexample : Fintype.card Rule ≠ 9 := by decide

/-- Claim C9 (amended): the rule enumeration is a closed, fixed set of
exactly SIX rule kinds, each carrying a one-character code; each code is
distinct, and each rule carries a nonempty message template (the
missing-freeze-annotation template has no placeholder, the other five
templates each contain a named placeholder). -/
theorem C9_rule_enumeration :
    Fintype.card Rule = 6 ∧
    (∀ r : Rule, (Rule.value r).length = 1) ∧
    (∀ r s : Rule, Rule.value r = Rule.value s → r = s) ∧
    (∀ r : Rule, (Rule.template r).length ≠ 0) ∧
    (∀ r : Rule, r ≠ .MISSING_FROZEN_COMMENT → (Rule.template r).data.contains '\x7b' = true) ∧
    (Rule.template .MISSING_FROZEN_COMMENT).data.contains '\x7b' = false := by
  refine ⟨by decide, ?_, ?_, ?_, ?_, by decide⟩
  · intro r; cases r <;> decide
  · intro r s h; cases r <;> cases s <;> first | rfl | exact absurd h (by decide)
  · intro r; cases r <;> decide
  · intro r h; cases r <;> first | decide | exact absurd rfl h

-- ## Claim C6

/-- Claim C6: `is_hash` holds exactly for nonempty strings all of whose
characters are, case-insensitively, hexadecimal digit characters
(`0`-`9`, `a`-`f`).  (ASCII model of the Python `\d` class and of
`str.lower`.) -/
theorem C6_is_hash_characterisation (s : String) :
    is_hash s = true ↔ s ≠ "" ∧ ∀ c ∈ s.data, specHexChar c = true :=
  is_hash_iff s

/-- Claim C6 witness: a concrete mixed-case hex string. -/
theorem C6_witness : is_hash "A1f" = true :=
  (C6_is_hash_characterisation "A1f").mpr (by decide)

-- ## Claim C8

/-- The spec-side reading of `select_best_tag`'s choice: `t` is the first
element of `l` (in the candidate order) whose length attains the minimum. -/
def IsFirstShortest (l : List String) (t : String) : Prop :=
  ∃ l₁ l₂, l = l₁ ++ t :: l₂ ∧ (∀ x ∈ l₁, t.length < x.length) ∧ ∀ x ∈ l, t.length ≤ x.length

/-- `minByLen` of a nonempty list always yields an element. -/
theorem minByLen_cons_isSome (s : String) (rest : List String) :
    (minByLen (s :: rest)).isSome = true := by
  simp only [minByLen]
  split
  · rfl
  · split <;> rfl

/-- `minByLen` returns nothing exactly on the empty list (Python's
`min(..., default=None)`). -/
theorem minByLen_eq_none_iff (l : List String) : minByLen l = none ↔ l = [] := by
  cases l with
  | nil => simp [minByLen]
  | cons s rest =>
    constructor
    · intro h
      have hs := minByLen_cons_isSome s rest
      rw [h] at hs
      exact absurd hs (by simp)
    · intro h
      exact absurd h (by simp)

/-- `minByLen` keeps the first element whose length attains the minimum,
exactly as Python's `min(iterable, key=len)` does. -/
theorem minByLen_first_shortest {l : List String} {t : String}
    (h : minByLen l = some t) : IsFirstShortest l t := by
  induction l generalizing t with
  | nil => exact absurd h (by simp [minByLen])
  | cons s rest ih =>
    simp only [minByLen] at h
    cases hr : minByLen rest with
    | none =>
      simp only [hr] at h
      injection h with h
      subst h
      have hrest : rest = [] := (minByLen_eq_none_iff rest).mp hr
      subst hrest
      exact ⟨[], [], rfl, by simp, by simp⟩
    | some m =>
      simp only [hr] at h
      obtain ⟨l₁, l₂, heq, hlt, hle⟩ := ih hr
      by_cases hml : m.length < s.length
      · rw [if_pos hml] at h
        injection h with h
        subst h
        refine ⟨s :: l₁, l₂, by rw [heq]; rfl, ?_, ?_⟩
        · intro x hx
          rcases List.mem_cons.mp hx with h' | h'
          · subst h'; exact hml
          · exact hlt x h'
        · intro x hx
          rcases List.mem_cons.mp hx with h' | h'
          · subst h'; omega
          · exact hle x h'
      · rw [if_neg hml] at h
        injection h with h
        subst h
        refine ⟨[], rest, rfl, by simp, ?_⟩
        intro x hx
        rcases List.mem_cons.mp hx with h' | h'
        · subst h'; omega
        · have hxm := hle x h'
          omega

/-- Claim C8: `selectBest` returns nothing exactly when the tag list is
empty; when some tag contains a `.` it returns the shortest dotted tag
(ties broken by the order of the candidates: the first shortest wins,
as Python's `min` does), and otherwise the shortest tag overall. -/
theorem C8_select_best_tag (tags : List String) :
    (selectBest tags = none ↔ tags = []) ∧
    ∀ t, selectBest tags = some t →
      (tags.filter (fun s => s.data.contains '.') = [] → IsFirstShortest tags t) ∧
      (tags.filter (fun s => s.data.contains '.') ≠ [] →
        IsFirstShortest (tags.filter (fun s => s.data.contains '.')) t) := by
  constructor
  · constructor
    · intro h
      unfold selectBest at h
      cases hd : minByLen (tags.filter (fun s => s.data.contains '.')) with
      | some m =>
        simp only [hd] at h
        exact absurd h (by simp)
      | none =>
        simp only [hd] at h
        exact (minByLen_eq_none_iff tags).mp h
    · intro h
      subst h
      rfl
  · intro t ht
    unfold selectBest at ht
    cases hd : minByLen (tags.filter (fun s => s.data.contains '.')) with
    | some m =>
      simp only [hd] at ht
      injection ht with ht
      subst ht
      constructor
      · intro hemp
        rw [hemp] at hd
        exact absurd hd (by simp [minByLen])
      · intro _
        exact minByLen_first_shortest hd
    | none =>
      simp only [hd] at ht
      constructor
      · intro _
        exact minByLen_first_shortest ht
      · intro hne
        exact absurd ((minByLen_eq_none_iff _).mp hd) hne


/-- Claim C8 witness: the empty tag list yields no tag. -/
theorem C8_witness : selectBest [] = none :=
  ((C8_select_best_tag []).1).mpr rfl

-- ## Claim C7

/-- Wellformedness of the frozen-rev token of the annotation grammar
`#( frozen: <rev>)?( <note>)?`: when present, the token is nonempty and
contains no whitespace. -/
def RevTokOk : Option String → Prop
  | none => True
  | some rv => rv.data ≠ [] ∧ rv.data.all (fun c => !isPySpace c) = true

/-- Wellformedness of the note part of the annotation grammar: when
present it is the separator space followed by newline-free text. -/
def NoteTokOk : Option String → Prop
  | none => True
  | some nt => nt.data.head? = some ' ' ∧ nt.data.tail.all (fun c => c != '\n') = true

/-- The text spelled by a decomposition of an annotation into its parts. -/
def decompData (r n : Option String) : List Char :=
  '#' :: ((r.elim [] fun rv => frozenMarker ++ rv.data) ++ n.elim [] fun nt => nt.data)

/-- A comment string matches the annotation grammar with the frozen-rev
token `r` (if present) and the note `n` (if present). -/
def GrammarDecomp (s : String) (r n : Option String) : Prop :=
  s.data = decompData r n ∧ RevTokOk r ∧ NoteTokOk n

theorem matchNoteOpt_sound {r : List Char} {n : Option String}
    (h : matchNoteOpt r = some n) : NoteTokOk n ∧ r = n.elim [] (fun nt => nt.data) := by
  unfold matchNoteOpt at h
  split at h
  · injection h with h
    subst h
    exact ⟨trivial, rfl⟩
  · rename_i c rest
    split at h
    · rename_i hc
      subst hc
      split at h
      · rename_i hall
        injection h with h
        subst h
        exact ⟨⟨rfl, hall⟩, rfl⟩
      · cases h
    · cases h

theorem matchNoteOpt_complete {n : Option String} (h : NoteTokOk n) :
    matchNoteOpt (n.elim [] (fun nt => nt.data)) = some n := by
  cases n with
  | none => rfl
  | some nt =>
    obtain ⟨hh, ht⟩ := h
    cases nt with
    | mk d =>
      cases d with
      | nil => cases hh
      | cons c cs =>
        simp only [String.data, List.tail_cons] at hh ht
        injection hh with hh
        subst hh
        show matchNoteOpt (' ' :: cs) = some (some { data := ' ' :: cs })
        simp only [matchNoteOpt, if_true]
        rw [if_pos ht]

theorem takeDropWhile_append {p : Char → Bool} (xs ys : List Char)
    (hxs : xs.all p = true) (hys : ys = [] ∨ ∃ z zs, ys = z :: zs ∧ p z = false) :
    (xs ++ ys).takeWhile p = xs ∧ (xs ++ ys).dropWhile p = ys := by
  induction xs with
  | nil =>
    simp only [List.nil_append]
    rcases hys with h | ⟨z, zs, hz, hpz⟩
    · subst h; exact ⟨rfl, rfl⟩
    · subst hz
      constructor
      · simp [List.takeWhile_cons, hpz]
      · simp [List.dropWhile_cons, hpz]
  | cons x xs ih =>
    simp only [List.all_cons, Bool.and_eq_true] at hxs
    obtain ⟨hpx, hall⟩ := hxs
    obtain ⟨ht, hd⟩ := ih hall
    constructor
    · simp [List.takeWhile_cons, hpx, ht]
    · simp [List.dropWhile_cons, hpx, hd]

theorem all_takeWhile (p : Char → Bool) (l : List Char) :
    (l.takeWhile p).all p = true := by
  induction l with
  | nil => rfl
  | cons x xs ih =>
    cases hpx : p x with
    | true => simp [List.takeWhile_cons, hpx, ih]
    | false => simp [List.takeWhile_cons, hpx]

theorem mk_data (s : String) : String.mk s.data = s := by
  cases s; rfl

theorem process_complete {s : String} {rv : String} {n : Option String}
    (h : GrammarDecomp s (some rv) n) :
    process_frozen_comment s = some (some rv, n) := by
  obtain ⟨hdata, hrev, hnote⟩ := h
  obtain ⟨hne, hall⟩ := hrev
  rw [show decompData (some rv) n =
    '#' :: ((frozenMarker ++ rv.data) ++ n.elim [] fun nt => nt.data) from rfl] at hdata
  have hpre : frozenMarker.isPrefixOf
      ((frozenMarker ++ rv.data) ++ n.elim [] (fun nt => nt.data)) = true := by
    rw [List.append_assoc]
    exact List.isPrefixOf_iff_prefix.mpr ⟨_, rfl⟩
  have hdrop : ((frozenMarker ++ rv.data) ++ n.elim [] (fun nt => nt.data)).drop
      frozenMarker.length = rv.data ++ n.elim [] (fun nt => nt.data) := by
    rw [List.append_assoc]
    exact List.drop_left _ _
  have hys : n.elim [] (fun nt => nt.data) = [] ∨
      ∃ z zs, n.elim [] (fun nt => nt.data) = z :: zs ∧ (!isPySpace z) = false := by
    cases n with
    | none => exact Or.inl rfl
    | some nt =>
      obtain ⟨hh, _⟩ := hnote
      cases hd : nt.data with
      | nil => rw [hd] at hh; cases hh
      | cons c cs =>
        rw [hd] at hh
        injection hh with hh
        subst hh
        exact Or.inr ⟨' ', cs,
          by rw [show (some nt).elim [] (fun nt => nt.data) = nt.data from rfl, hd], by decide⟩
  obtain ⟨htake, hdropw⟩ := takeDropWhile_append (p := fun x => !isPySpace x)
    rv.data (n.elim [] (fun nt => nt.data)) hall hys
  have hemp : rv.data.isEmpty = false := by
    cases hd : rv.data with
    | nil => exact absurd hd hne
    | cons c cs => rfl
  have hmn := matchNoteOpt_complete hnote
  unfold process_frozen_comment
  rw [hdata]
  simp only [if_pos rfl, hpre, if_true, hdrop, htake, hdropw, hemp, Bool.false_eq_true,
    if_false, hmn, mk_data]

theorem process_fallback_sound {s : String} {t : List Char} {r n : Option String}
    (heq : s.data = '#' :: t)
    (h : (match matchNoteOpt t with
          | some note => some ((none : Option String), note)
          | none => none) = some (r, n)) :
    GrammarDecomp s r n := by
  cases hmn : matchNoteOpt t with
  | none => rw [hmn] at h; cases h
  | some note =>
    rw [hmn] at h
    injection h with h
    injection h with h1 h2
    subst h1
    subst h2
    obtain ⟨hok, hteq⟩ := matchNoteOpt_sound hmn
    refine ⟨?_, trivial, hok⟩
    rw [heq, hteq]
    rfl

theorem process_g1_sound {s : String} {t : List Char} {note : Option String}
    (heq : s.data = '#' :: t) (hm : frozenMarker.isPrefixOf t = true)
    (hemp : ((t.drop frozenMarker.length).takeWhile fun x => !isPySpace x).isEmpty = false)
    (hmn : matchNoteOpt ((t.drop frozenMarker.length).dropWhile fun x => !isPySpace x)
      = some note) :
    GrammarDecomp s
      (some (String.mk ((t.drop frozenMarker.length).takeWhile fun x => !isPySpace x)))
      note := by
  obtain ⟨hok, hdeq⟩ := matchNoteOpt_sound hmn
  obtain ⟨u, hu⟩ := List.isPrefixOf_iff_prefix.mp hm
  have hu2 : t.drop frozenMarker.length = u := by
    rw [← hu]
    exact List.drop_left _ _
  refine ⟨?_, ⟨?_, all_takeWhile _ _⟩, hok⟩
  · rw [heq]
    show '#' :: t = decompData _ note
    rw [show decompData
        (some (String.mk ((t.drop frozenMarker.length).takeWhile fun x => !isPySpace x))) note
      = '#' :: ((frozenMarker ++ ((t.drop frozenMarker.length).takeWhile fun x => !isPySpace x))
          ++ note.elim [] fun nt => nt.data) from rfl]
    rw [hu2, ← hdeq, ← hu2, List.append_assoc, List.takeWhile_append_dropWhile, hu2, hu]
  · show ((t.drop frozenMarker.length).takeWhile fun x => !isPySpace x) ≠ []
    intro hc
    rw [hc] at hemp
    cases hemp

theorem process_sound {s : String} {r n : Option String}
    (h : process_frozen_comment s = some (r, n)) : GrammarDecomp s r n := by
  unfold process_frozen_comment at h
  split at h
  · cases h
  · rename_i c t heq
    split at h
    · rename_i hc
      subst hc
      cases hm : frozenMarker.isPrefixOf t with
      | false =>
        simp only [hm, Bool.false_eq_true, if_false] at h
        exact process_fallback_sound heq h
      | true =>
        simp only [hm, if_true] at h
        cases hemp : ((t.drop frozenMarker.length).takeWhile fun x => !isPySpace x).isEmpty with
        | true =>
          simp only [hemp, if_true] at h
          exact process_fallback_sound heq h
        | false =>
          simp only [hemp, Bool.false_eq_true, if_false] at h
          cases hmn : matchNoteOpt ((t.drop frozenMarker.length).dropWhile
              fun x => !isPySpace x) with
          | none =>
            rw [hmn] at h
            exact process_fallback_sound heq h
          | some note =>
            rw [hmn] at h
            injection h with h
            injection h with h1 h2
            subst h1
            subst h2
            exact process_g1_sound heq hm hemp hmn
    · cases h

theorem process_ne_none_of_decomp_none {s : String} {n : Option String}
    (h : GrammarDecomp s none n) : process_frozen_comment s ≠ none := by
  obtain ⟨hdata, _, hok⟩ := h
  have hdata2 : s.data = '#' :: n.elim [] (fun nt => nt.data) := hdata
  have hmn := matchNoteOpt_complete hok
  intro hcontra
  unfold process_frozen_comment at hcontra
  rw [hdata2] at hcontra
  simp only [if_pos rfl, if_true] at hcontra
  split at hcontra
  · cases hcontra
  · rw [hmn] at hcontra
    cases hcontra

/-- Claim C7 counterexample: on the bare comment `#` both groups are
absent and `process_frozen_comment` returns `None` for the note component,
not the empty string (the conversion to `""` happens later, in
`lint_repo`). -/
theorem C7_counterexample :
    process_frozen_comment "#" = some (none, none) ∧ (none : Option String) ≠ some "" := by
  constructor
  · decide
  · decide

/-- Claim C7 (amended): `process_frozen_comment` returns `None` exactly
when the comment does not match the annotation grammar
`#( frozen: <rev>)?( <note>)?`; otherwise it returns the pair of the
frozen-rev token (or `None` when absent) and the note including its
leading separator space (or `None` — not the empty string — when the note
is absent); whenever a frozen-rev reading of the comment exists, that
reading is the one returned (the regex prefers the greedy ` frozen: `
group). -/
theorem C7_process_frozen_comment (s : String) :
    (process_frozen_comment s = none ↔ ∀ r n, ¬ GrammarDecomp s r n) ∧
    (∀ r n, process_frozen_comment s = some (r, n) → GrammarDecomp s r n) ∧
    (∀ rv n, GrammarDecomp s (some rv) n → process_frozen_comment s = some (some rv, n)) := by
  refine ⟨⟨?_, ?_⟩, fun r n h => process_sound h, fun rv n h => process_complete h⟩
  · intro hnone r n hd
    cases r with
    | some rv => rw [process_complete hd] at hnone; cases hnone
    | none => exact process_ne_none_of_decomp_none hd hnone
  · intro hall
    cases hp : process_frozen_comment s with
    | none => rfl
    | some x =>
      obtain ⟨r, n⟩ := x
      exact absurd (process_sound hp) (hall r n)

/-- Claim C7 witness: a concrete annotation with both a frozen-rev token
and a note. -/
theorem C7_witness :
    process_frozen_comment "# frozen: v1.2.0 x" = some (some "v1.2.0", some " x") :=
  (C7_process_frozen_comment "# frozen: v1.2.0 x").2.2 "v1.2.0" (some " x")
    ⟨by decide, ⟨by decide, by decide⟩, ⟨by decide, by decide⟩⟩

-- ## Claim C10

/-- Binding a pure value just applies the continuation. -/
theorem exbind_pure {α β : Type} (a : α) (f : α → Except GitErr β) :
    ((pure a : Except GitErr α) >>= f) = f a := rfl

/-- Every complain in `cs` belongs to an enabled rule. -/
def AllEnabled (L : Linter) (cs : List Complain) : Prop :=
  ∀ d ∈ cs, L.enabledRule d.type = true

theorem mem_addIfEnabled {L : Linter} {cs : List Complain} {c d : Complain}
    (h : d ∈ L.addIfEnabled cs c) : d ∈ cs ∨ (d = c ∧ L.enabledRule c.type = true) := by
  unfold Linter.addIfEnabled at h
  split at h
  · rename_i hg
    rcases List.mem_append.mp h with h' | h'
    · exact Or.inl h'
    · exact Or.inr ⟨List.mem_singleton.mp h', hg⟩
  · exact Or.inl h

theorem allEnabled_addIfEnabled {L : Linter} {cs : List Complain} {c : Complain}
    (h : AllEnabled L cs) : AllEnabled L (L.addIfEnabled cs c) := by
  intro d hd
  rcases mem_addIfEnabled hd with h' | ⟨rfl, hg⟩
  · exact h d h'
  · exact hg

theorem allEnabled_nil {L : Linter} : AllEnabled L [] := by
  intro d hd
  exact absurd hd (List.not_mem_nil d)

theorem allEnabled_stepNoAbbrev {L : Linter} {file rev : String} {line column : Nat}
    {ish : Bool} : AllEnabled L (L.stepNoAbbrev file rev line column ish) := by
  unfold Linter.stepNoAbbrev
  split
  · exact allEnabled_addIfEnabled allEnabled_nil
  · exact allEnabled_nil

theorem allEnabled_stepUnfreeze {L : Linter} {git : Git} {file u rv : String}
    {line col : Nat} {ish ifh : Bool} {cs : List Complain} {ry : RepoYaml}
    {res : List Complain × RepoYaml × Bool × Bool}
    (hcs : AllEnabled L cs)
    (hout : L.stepUnfreeze git file u rv line col ish ifh cs ry = .ok res) :
    AllEnabled L res.1 := by
  unfold Linter.stepUnfreeze at hout
  split at hout
  · split at hout
    · cases hsel : Linter.select_best_tag git u rv with
      | error e =>
        rw [hsel, exbind_error] at hout
        cases hout
      | ok v =>
        rw [hsel, exbind_ok] at hout
        cases v with
        | some t =>
          injection hout with hout
          subst hout
          exact allEnabled_addIfEnabled hcs
        | none =>
          injection hout with hout
          subst hout
          exact allEnabled_addIfEnabled hcs
    · injection hout with hout
      subst hout
      exact allEnabled_addIfEnabled hcs
  · injection hout with hout
    subst hout
    exact hcs

theorem allEnabled_stepFrozen {L : Linter} {git : Git} {file u rv : String}
    {line commentCol : Nat} {ifh : Bool} {comment_rev : Option String}
    {comment_note : String} {cs : List Complain} {ry : RepoYaml}
    {res : List Complain × RepoYaml}
    (hcs : AllEnabled L cs)
    (hout : L.stepFrozen git file u rv line commentCol ifh comment_rev comment_note cs ry
      = .ok res) :
    AllEnabled L res.1 := by
  simp only [Linter.stepFrozen] at hout
  have hfix : ∀ (c : Complain),
      ((if L.shouldFixComplain c then
          Linter.select_best_tag git u rv >>= fun tag =>
            match tag with
            | some t =>
                pure (L.addIfEnabled cs { c with fixed := true },
                  yaml_add_eol_comment ry
                    (pyFormat comment_template [("rev", t), ("note", comment_note)]))
            | none =>
                pure (L.addIfEnabled cs { c with fixable := false }, ry)
        else pure (L.addIfEnabled cs c, ry)) = Except.ok res) →
      AllEnabled L res.1 := by
    intro c hc
    split at hc
    · cases hsel : Linter.select_best_tag git u rv with
      | error e =>
        rw [hsel, exbind_error] at hc
        cases hc
      | ok v =>
        rw [hsel, exbind_ok] at hc
        cases v with
        | some t =>
          injection hc with hc
          subst hc
          exact allEnabled_addIfEnabled hcs
        | none =>
          injection hc with hc
          subst hc
          exact allEnabled_addIfEnabled hcs
    · injection hc with hc
      subst hc
      exact allEnabled_addIfEnabled hcs
  cases comment_rev with
  | none =>
    simp only [exbind_pure] at hout
    exact hfix _ hout
  | some cr =>
    simp only [] at hout
    split at hout
    · cases htags : git.getTags u rv with
      | error e =>
        rw [htags, exbind_error, exbind_error] at hout
        cases hout
      | ok tags =>
        rw [htags, exbind_ok] at hout
        split at hout
        · simp only [exbind_pure] at hout
          exact hfix _ hout
        · simp only [exbind_pure] at hout
          injection hout with hout
          subst hout
          exact hcs
    · simp only [exbind_pure] at hout
      injection hout with hout
      subst hout
      exact hcs

theorem allEnabled_stepUnfrozenRest {L : Linter} {file : String} {line column : Nat}
    {comment_rev : Option String} {comment_note : String}
    {origComment : Option CommentTok} {cs : List Complain}
    {res : List Complain × RepoYaml}
    (hcs : AllEnabled L cs) (ry1 : RepoYaml) (comp1 : Complain)
    (hc : (if !(L.enabledRule comp1.type) then
        match comment_rev, origComment with
        | some _, some cy =>
          if L.shouldFixComplain (L.mkComplain file .EXCESS_FROZEN_COMMENT line
              (if cy.column ≠ 0 then cy.column else column) true
              [("comment", pyStrip cy.value)]) then
            pure (L.addIfEnabled (L.addIfEnabled cs comp1)
                { L.mkComplain file .EXCESS_FROZEN_COMMENT line
                    (if cy.column ≠ 0 then cy.column else column) true
                    [("comment", pyStrip cy.value)] with fixed := true },
              if comment_note ≠ "" then yaml_add_eol_comment ry1 comment_note
              else { ry1 with comment := none })
          else
            pure (L.addIfEnabled (L.addIfEnabled cs comp1)
                (L.mkComplain file .EXCESS_FROZEN_COMMENT line
                  (if cy.column ≠ 0 then cy.column else column) true
                  [("comment", pyStrip cy.value)]),
              ry1)
        | _, _ => pure (L.addIfEnabled cs comp1, ry1)
      else pure (L.addIfEnabled cs comp1, ry1) :
        Except GitErr (List Complain × RepoYaml)) = Except.ok res) :
    AllEnabled L res.1 := by
  (repeat' split at hc) <;>
    (injection hc with hc; subst hc;
      first
        | exact allEnabled_addIfEnabled (allEnabled_addIfEnabled hcs)
        | exact allEnabled_addIfEnabled hcs)

theorem allEnabled_stepUnfrozen {L : Linter} {git : Git} {file u rv : String}
    {line column : Nat} {comment_rev : Option String} {comment_note : String}
    {origComment : Option CommentTok} {cs : List Complain} {ry : RepoYaml}
    {res : List Complain × RepoYaml}
    (hcs : AllEnabled L cs)
    (hout : L.stepUnfrozen git file u rv line column comment_rev comment_note
      origComment cs ry = .ok res) :
    AllEnabled L res.1 := by
  unfold Linter.stepUnfrozen at hout
  split at hout
  · cases hres : git.getHashFor u rv with
    | error e =>
      rw [hres, exbind_error] at hout
      cases hout
    | ok hash =>
      rw [hres, exbind_ok] at hout
      split at hout
      · simp only [exbind_pure] at hout
        exact allEnabled_stepUnfrozenRest hcs
          (yaml_add_eol_comment { ry with rev := hash }
            (pyFormat comment_template [("rev", rv), ("note", comment_note)]))
          { L.mkComplain file .FORCE_FREEZE line column true [("rev", rv)] with fixed := true }
          hout
      · simp only [exbind_pure] at hout
        exact allEnabled_stepUnfrozenRest hcs ry
          { L.mkComplain file .FORCE_FREEZE line column true [("rev", rv)] with fixable := false }
          hout
  · simp only [exbind_pure] at hout
    exact allEnabled_stepUnfrozenRest hcs ry
      (L.mkComplain file .FORCE_FREEZE line column true [("rev", rv)]) hout

theorem allEnabled_lint_repo {L : Linter} {git : Git} {file : String} {ry : RepoYaml}
    {res : List Complain × RepoYaml}
    (hout : L.lint_repo git file ry = .ok res) : AllEnabled L res.1 := by
  unfold Linter.lint_repo at hout
  cases hsu : L.stepUnfreeze git file ry.repoUrl ry.rev ry.line ry.column
      (is_short_hash ry.rev) (is_full_hash ry.rev)
      (L.stepNoAbbrev file ry.rev ry.line ry.column (is_short_hash ry.rev)) ry with
  | error e =>
    rw [hsu, exbind_error] at hout
    cases hout
  | ok v =>
    rw [hsu, exbind_ok] at hout
    have hv := allEnabled_stepUnfreeze (allEnabled_stepNoAbbrev) hsu
    split at hout
    · exact allEnabled_stepFrozen hv hout
    · exact allEnabled_stepUnfrozen hv hout

/-- Claim C10: every diagnostic in the list collected by a run belongs to
an enabled rule — `Linter.complain` only appends a constructed complain
when its rule's one-character code is in the enabled-rule string (a
complain for a non-enabled rule is still constructed and still steers the
fix logic, but never reaches the collected list). -/
theorem C10_collected_complains_enabled (L : Linter) (git : Git) (file : String)
    (repos : List RepoYaml) (res : List Complain × List RepoYaml)
    (hout : L.runRepos git file repos = .ok res) :
    ∀ c ∈ res.1, L.enabledRule c.type = true := by
  induction repos generalizing res with
  | nil =>
    injection hout with hout
    subst hout
    exact allEnabled_nil
  | cons ry rest ih =>
    unfold Linter.runRepos at hout
    cases hlr : L.lint_repo git file ry with
    | error e =>
      rw [hlr, exbind_error] at hout
      cases hout
    | ok v =>
      rw [hlr, exbind_ok] at hout
      cases hrest : L.runRepos git file rest with
      | error e =>
        rw [hrest, exbind_error] at hout
        cases hout
      | ok w =>
        rw [hrest, exbind_ok] at hout
        injection hout with hout
        subst hout
        intro c hc
        rcases List.mem_append.mp hc with h' | h'
        · exact allEnabled_lint_repo hlr c h'
        · exact ih _ hrest c h'

-- ## Concrete fixtures for counterexamples and witnesses

/-- A git oracle whose tag query always finds `v1.2.0` and whose rev
resolution always yields a full hash. -/
def gitOkTags : Git :=
  { getTags := fun _ _ => .ok ["v1.2.0"],
    getHashFor := fun _ _ => .ok "aaaaaaaaaaaaaaaaaaaaaaaaaaaaaaaaaaaaaaaa" }

/-- A git oracle whose every call fails (git exits nonzero). -/
def gitFail : Git :=
  { getTags := fun _ _ => .error .processError,
    getHashFor := fun _ _ => .error .processError }

-- ## Claim C1

/-- Claim C1 counterexample: a 40-character string of `z` is not hash-like,
yet the full-hash test of source line 330 holds for it (the line checks only
the length), and the entry is processed through the frozen branch: with only
the force-unfreeze rule enabled the linter emits `FORCE_UNFREEZE`
("Frozen revision: ..."), not the unfrozen-branch `FORCE_FREEZE`. -/
theorem C1_counterexample :
    is_hash "zzzzzzzzzzzzzzzzzzzzzzzzzzzzzzzzzzzzzzzz" = false ∧
    is_full_hash "zzzzzzzzzzzzzzzzzzzzzzzzzzzzzzzzzzzzzzzz" = true ∧
    Linter.lint_repo { rules := "u", fix := "" } gitFail "f"
      { repoUrl := "https://x/y", rev := "zzzzzzzzzzzzzzzzzzzzzzzzzzzzzzzzzzzzzzzz",
        line := 0, column := 2, comment := none } =
      .ok ([Linter.mkComplain { rules := "u", fix := "" } "f" .FORCE_UNFREEZE 0 2 true
              [("rev", "zzzzzzzzzzzzzzzzzzzzzzzzzzzzzzzzzzzzzzzz")]],
        { repoUrl := "https://x/y", rev := "zzzzzzzzzzzzzzzzzzzzzzzzzzzzzzzzzzzzzzzz",
          line := 0, column := 2, comment := none }) := by
  refine ⟨by decide, by decide, ?_⟩
  rfl

/-- Claim C1 (amended): for a revision specifier that is empty or contains
a non-hexadecimal character, the abbreviated-hash predicate never holds;
the full-hash predicate holds exactly when the length is 40 (it ignores the
characters), so such a specifier reaches the unfrozen branch only when its
length differs from 40.  With force-freeze enabled and not selected for
fixing, the unfrozen branch emits exactly the `FORCE_FREEZE` diagnostic and
leaves the entry unchanged. -/
theorem C1_nonhex_unfrozen (L : Linter) (git : Git) (file : String) (ry : RepoYaml)
    (hnh : ry.rev = "" ∨ ∃ c ∈ ry.rev.data, specHexChar c = false)
    (hlen : ry.rev.length ≠ 40)
    (hen : L.enabledRule .FORCE_FREEZE = true)
    (hfx : L.shouldFixRule .FORCE_FREEZE = false) :
    is_short_hash ry.rev = false ∧ is_full_hash ry.rev = false ∧
    L.lint_repo git file ry =
      .ok ([L.mkComplain file .FORCE_FREEZE ry.line ry.column true [("rev", ry.rev)]], ry) := by
  have hih : is_hash ry.rev = false := by
    cases hh : is_hash ry.rev
    · rfl
    · exfalso
      obtain ⟨hne, hall⟩ := (is_hash_iff ry.rev).mp hh
      rcases hnh with h | ⟨c, hc, hcf⟩
      · exact hne h
      · rw [hall c hc] at hcf
        cases hcf
  have hsh : is_short_hash ry.rev = false := by
    unfold is_short_hash
    rw [hih]
    rfl
  have hfh : is_full_hash ry.rev = false := by
    unfold is_full_hash
    simp [SHA1_LENGTH, hlen]
  refine ⟨hsh, hfh, ?_⟩
  unfold Linter.lint_repo Linter.stepNoAbbrev Linter.stepUnfreeze Linter.stepUnfrozen
  rw [hsh, hfh]
  simp only [Bool.or_self, Bool.false_eq_true, if_false, exbind_pure]
  have hsf : L.shouldFixComplain
      (L.mkComplain file .FORCE_FREEZE ry.line ry.column true [("rev", ry.rev)]) = false := by
    unfold Linter.shouldFixComplain Linter.mkComplain
    simp [hfx]
  rw [hsf]
  simp only [Bool.false_eq_true, if_false, exbind_pure]
  have hgate : (!(L.enabledRule
      (L.mkComplain file .FORCE_FREEZE ry.line ry.column true [("rev", ry.rev)]).type)) = false := by
    unfold Linter.mkComplain
    simp [hen]
  rw [hgate]
  simp only [Bool.false_eq_true, if_false]
  unfold Linter.addIfEnabled Linter.mkComplain
  simp [hen]
  rfl

-- ## Claim C2

/-- Claim C2 counterexample: an 8-character abbreviated hash with rules
`au` and fix `u`, and a git oracle under which `select_best_tag` would
return `v1.2.0`: the linter emits `NO_ABBREV` and `FORCE_UNFREEZE`, both
NOT fixable and NOT fixed, and leaves the revision at `abcd1234` — the
`FORCE_UNFREEZE` complain is created with `fixable = is_full_hash = False`
(source line 338), so the fix path is never entered for an abbreviated
hash. -/
theorem C2_counterexample :
    Linter.lint_repo { rules := "au", fix := "u" } gitOkTags "f"
      { repoUrl := "https://x/y", rev := "abcd1234", line := 0, column := 2, comment := none } =
      .ok ([Linter.mkComplain { rules := "au", fix := "u" } "f" .NO_ABBREV 0 2 false
              [("rev", "abcd1234")],
            Linter.mkComplain { rules := "au", fix := "u" } "f" .FORCE_UNFREEZE 0 2 false
              [("rev", "abcd1234")]],
        { repoUrl := "https://x/y", rev := "abcd1234", line := 0, column := 2,
          comment := none }) ∧
    selectBest ["v1.2.0"] = some "v1.2.0" ∧ ("abcd1234" : String) ≠ "v1.2.0" := by
  refine ⟨rfl, by decide, by decide⟩

/-- Claim C2 (amended): for an entry whose revision is an 8-character
abbreviated hash, with rules `au` (no-abbrev and force-unfreeze) and fix
`u`, the linter emits exactly two diagnostics — `NO_ABBREV` and
`FORCE_UNFREEZE` — but the `FORCE_UNFREEZE` diagnostic is constructed with
`fixable = false` (fixable only for a full 40-character hash), no fix is
attempted, the tag oracle is never consulted (the git oracle is arbitrary
here), and the revision is left unchanged. -/
theorem C2_abbrev_not_fixed (L : Linter) (git : Git) (file : String) (ry : RepoYaml)
    (hlen : ry.rev.length = 8) (hhash : is_hash ry.rev = true)
    (hrules : L.rules = "au") (hfix : L.fix = "u") :
    L.lint_repo git file ry =
      .ok ([L.mkComplain file .NO_ABBREV ry.line ry.column false [("rev", ry.rev)],
            L.mkComplain file .FORCE_UNFREEZE ry.line ry.column false [("rev", ry.rev)]],
        ry) := by
  obtain ⟨rules, fix⟩ := L
  cases hrules
  cases hfix
  have hsh : is_short_hash ry.rev = true := by
    unfold is_short_hash
    rw [hhash, hlen]
    rfl
  have hfh : is_full_hash ry.rev = false := by
    unfold is_full_hash
    rw [hlen]
    rfl
  unfold Linter.lint_repo Linter.stepNoAbbrev Linter.stepUnfreeze Linter.stepFrozen
  rw [hsh, hfh]
  simp only [if_true, Bool.true_or, Bool.or_false, exbind_pure, exbind_ok]
  have hsf : Linter.shouldFixComplain ⟨"au", "u"⟩
      (Linter.mkComplain ⟨"au", "u"⟩ file .FORCE_UNFREEZE ry.line ry.column false
        [("rev", ry.rev)]) = false := by
    unfold Linter.shouldFixComplain Linter.mkComplain
    rfl
  rw [hsf]
  simp only [Bool.false_eq_true, if_false, exbind_pure]
  cases hpc : (parseCommentInfo ry.comment).1 with
  | none => rfl
  | some cr => rfl

/-- Claim C1 witness: `main` is non-hex of length ≠ 40, force-freeze
enabled but not selected for fixing. -/
theorem C1_witness :
    is_short_hash "main" = false ∧ is_full_hash "main" = false ∧
    Linter.lint_repo { rules := "f", fix := "" } gitFail "f"
      { repoUrl := "https://x/y", rev := "main", line := 0, column := 2, comment := none } =
      .ok ([Linter.mkComplain { rules := "f", fix := "" } "f" .FORCE_FREEZE 0 2 true
              [("rev", "main")]],
        { repoUrl := "https://x/y", rev := "main", line := 0, column := 2, comment := none }) :=
  C1_nonhex_unfrozen { rules := "f", fix := "" } gitFail "f"
    { repoUrl := "https://x/y", rev := "main", line := 0, column := 2, comment := none }
    (Or.inr ⟨'m', by decide, by decide⟩) (by decide) (by decide) (by decide)

/-- Claim C2 witness: a concrete 8-character hash, with a git oracle that
always fails — showing the oracle is never consulted. -/
theorem C2_witness :
    Linter.lint_repo { rules := "au", fix := "u" } gitFail "f"
      { repoUrl := "https://x/y", rev := "abcd1234", line := 0, column := 2, comment := none } =
      .ok ([Linter.mkComplain { rules := "au", fix := "u" } "f" .NO_ABBREV 0 2 false
              [("rev", "abcd1234")],
            Linter.mkComplain { rules := "au", fix := "u" } "f" .FORCE_UNFREEZE 0 2 false
              [("rev", "abcd1234")]],
        { repoUrl := "https://x/y", rev := "abcd1234", line := 0, column := 2,
          comment := none }) :=
  C2_abbrev_not_fixed { rules := "au", fix := "u" } gitFail "f"
    { repoUrl := "https://x/y", rev := "abcd1234", line := 0, column := 2, comment := none }
    (by decide) (by decide) rfl rfl

-- ## Claim C3

/-- Claim C3: for an entry whose revision is neither an abbreviated nor a
full hash, with force-freeze enabled and selected for fixing and the
resolver returning a (truthy) commit id, the linter emits exactly the
`FORCE_FREEZE` diagnostic with `fixable = true` and `fixed = true`, sets
the revision to the resolved commit, and rewrites the annotation to
`frozen: <original specifier><note>` — the recorded rev is the original
specifier, not the resolved commit, and the parsed note is preserved. -/
theorem C3_force_freeze_fix (L : Linter) (git : Git) (file : String) (ry : RepoYaml)
    (h : String)
    (hsh : is_short_hash ry.rev = false) (hfh : is_full_hash ry.rev = false)
    (hen : L.enabledRule .FORCE_FREEZE = true) (hfx : pyIn "f" L.fix = true)
    (hres : git.getHashFor ry.repoUrl ry.rev = .ok h) (hne : h ≠ "") :
    L.lint_repo git file ry =
      .ok ([{ L.mkComplain file .FORCE_FREEZE ry.line ry.column true [("rev", ry.rev)] with
              fixed := true }],
        yaml_add_eol_comment { ry with rev := h }
          (pyFormat comment_template
            [("rev", ry.rev), ("note", (parseCommentInfo ry.comment).2)])) := by
  unfold Linter.lint_repo Linter.stepNoAbbrev Linter.stepUnfreeze Linter.stepUnfrozen
  rw [hsh, hfh]
  simp only [Bool.or_self, Bool.false_eq_true, if_false, exbind_pure]
  have hsf : L.shouldFixComplain
      (L.mkComplain file .FORCE_FREEZE ry.line ry.column true [("rev", ry.rev)]) = true := by
    unfold Linter.shouldFixComplain Linter.shouldFixRule Linter.mkComplain
    simp [hen, hfx, Rule.value]
  rw [hsf]
  simp only [if_true]
  rw [hres, exbind_ok, if_pos hne]
  simp only [exbind_pure]
  have hgate : (!(L.enabledRule
      ({ L.mkComplain file .FORCE_FREEZE ry.line ry.column true [("rev", ry.rev)] with
        fixed := true }).type)) = false := by
    unfold Linter.mkComplain
    simp [hen]
  rw [hgate]
  simp only [Bool.false_eq_true, if_false]
  unfold Linter.addIfEnabled Linter.mkComplain
  simp [hen]
  rfl

/-- Claim C3 witness: `main` resolved to a 40-character commit id. -/
theorem C3_witness :
    Linter.lint_repo { rules := "f", fix := "f" } gitOkTags "f"
      { repoUrl := "https://x/y", rev := "main", line := 0, column := 2, comment := none } =
      .ok ([{ Linter.mkComplain { rules := "f", fix := "f" } "f" .FORCE_FREEZE 0 2 true
                [("rev", "main")] with fixed := true }],
        yaml_add_eol_comment
          { repoUrl := "https://x/y", rev := "aaaaaaaaaaaaaaaaaaaaaaaaaaaaaaaaaaaaaaaa",
            line := 0, column := 2, comment := none }
          (pyFormat comment_template
            [("rev", "main"),
             ("note", (parseCommentInfo (none : Option CommentTok)).2)])) :=
  C3_force_freeze_fix { rules := "f", fix := "f" } gitOkTags "f"
    { repoUrl := "https://x/y", rev := "main", line := 0, column := 2, comment := none }
    "aaaaaaaaaaaaaaaaaaaaaaaaaaaaaaaaaaaaaaaa"
    (by decide) (by decide) (by decide) (by decide) rfl (by decide)

-- ## Claim C4

/-- Claim C4: a failing resolver call during a fix attempt is NOT recovered
locally — the `CalledProcessError` of `cmd_output` propagates out of
`lint_repo` (nothing catches it; the source carries `TODO catch git
errors`), aborting the whole run: with two entries whose first fix attempt
hits a failing git, the run returns the error, the second entry is never
processed and no diagnostics survive. -/
theorem C4_resolver_error_fatal :
    Linter.runRepos { rules := "f", fix := "f" } gitFail "f"
      [{ repoUrl := "https://x/y", rev := "main", line := 0, column := 2, comment := none },
       { repoUrl := "https://x/y", rev := "dev", line := 1, column := 2, comment := none }] =
      .error .processError := rfl

-- ## Claim C5

/-- Claim C5 counterexample: a full-hash entry with no annotation, the
missing-frozen-comment rule enabled and selected for fixing: the source
(lines 382-394) DOES take a fix action for this rule — it selects the best
tag, synthesizes the annotation `frozen: v1.2.0` onto the entry and marks
the diagnostic fixed, so the annotation field does not stay unchanged. -/
theorem C5_counterexample :
    Linter.lint_repo { rules := "m", fix := "m" } gitOkTags "f"
      { repoUrl := "https://x/y", rev := "0123456789abcdef0123456789abcdef01234567",
        line := 0, column := 2, comment := none } =
      .ok ([{ Linter.mkComplain { rules := "m", fix := "m" } "f" .MISSING_FROZEN_COMMENT 0 2
                true [("rev", "0123456789abcdef0123456789abcdef01234567")] with
              fixed := true }],
        { repoUrl := "https://x/y", rev := "0123456789abcdef0123456789abcdef01234567",
          line := 0, column := 2,
          comment := some { value := "# frozen: v1.2.0", column := 2 } }) ∧
    (some { value := "# frozen: v1.2.0", column := 2 } : Option CommentTok) ≠ none := by
  refine ⟨rfl, by decide⟩

/-- Claim C5 (amended): for an entry still frozen after step 4 (here: a
full 40-character hash with the force-unfreeze fix not selected) and with
no frozen-rev token in its annotation, the linter emits
`MISSING_FROZEN_COMMENT` (fixable, since the hash is full); when the
diagnostic is selected for fixing and a best tag is found, the annotation
IS synthesized — it is rewritten to `frozen: <best tag><note>` and the
diagnostic is marked fixed; the revision itself stays unchanged. -/
theorem C5_missing_comment_fix (L : Linter) (git : Git) (file : String) (ry : RepoYaml)
    (tags : List String) (tg : String)
    (h40 : ry.rev.length = 40)
    (hcr : (parseCommentInfo ry.comment).1 = none)
    (hm : L.enabledRule .MISSING_FROZEN_COMMENT = true)
    (hmf : pyIn "m" L.fix = true)
    (hu : L.shouldFixRule .FORCE_UNFREEZE = false)
    (ht : git.getTags ry.repoUrl ry.rev = .ok tags)
    (hbt : selectBest tags = some tg) :
    L.lint_repo git file ry =
      .ok ((L.addIfEnabled []
              (L.mkComplain file .FORCE_UNFREEZE ry.line ry.column true [("rev", ry.rev)])) ++
           [{ L.mkComplain file .MISSING_FROZEN_COMMENT ry.line (commentColOf ry) true
                [("rev", ry.rev)] with fixed := true }],
        yaml_add_eol_comment ry
          (pyFormat comment_template
            [("rev", tg), ("note", (parseCommentInfo ry.comment).2)])) ∧
    (yaml_add_eol_comment ry
        (pyFormat comment_template
          [("rev", tg), ("note", (parseCommentInfo ry.comment).2)])).rev = ry.rev := by
  have hsh : is_short_hash ry.rev = false := by
    unfold is_short_hash
    rw [h40]
    simp [MIN_HASH_LENGTH, SHA1_LENGTH]
  have hfh : is_full_hash ry.rev = true := by
    unfold is_full_hash
    rw [h40]
    rfl
  refine ⟨?_, rfl⟩
  unfold Linter.lint_repo Linter.stepNoAbbrev Linter.stepUnfreeze Linter.stepFrozen
  rw [hsh, hfh]
  simp only [Bool.false_eq_true, if_false, Bool.false_or, if_true]
  have hsfu : L.shouldFixComplain
      (L.mkComplain file .FORCE_UNFREEZE ry.line ry.column true [("rev", ry.rev)]) = false := by
    unfold Linter.shouldFixComplain Linter.mkComplain
    simp [hu]
  rw [hsfu]
  simp only [Bool.false_eq_true, if_false, exbind_pure]
  rw [hcr]
  simp only [exbind_pure]
  have hsfm : L.shouldFixComplain
      (L.mkComplain file .MISSING_FROZEN_COMMENT ry.line (commentColOf ry) true
        [("rev", ry.rev)]) = true := by
    unfold Linter.shouldFixComplain Linter.shouldFixRule Linter.mkComplain
    simp [hm, hmf, Rule.value]
  rw [hsfm]
  simp only [if_true]
  unfold Linter.select_best_tag
  rw [ht]
  simp only [exbind_ok, exbind_pure, hbt]
  have hadd : ∀ (cs : List Complain),
      L.addIfEnabled cs
        { L.mkComplain file .MISSING_FROZEN_COMMENT ry.line (commentColOf ry) true
            [("rev", ry.rev)] with fixed := true } =
      cs ++ [{ L.mkComplain file .MISSING_FROZEN_COMMENT ry.line (commentColOf ry) true
                [("rev", ry.rev)] with fixed := true }] := by
    intro cs
    unfold Linter.addIfEnabled Linter.mkComplain
    simp [hm]
  rw [hadd]
  simp only [Bool.false_or, if_true]
  rfl

/-- Claim C5 witness: a concrete full hash with the missing-annotation fix
selected; the best tag is `v1.2.0`. -/
theorem C5_witness :
    Linter.lint_repo { rules := "m", fix := "m" } gitOkTags "f"
      { repoUrl := "https://x/y", rev := "0123456789abcdef0123456789abcdef01234567",
        line := 0, column := 2, comment := none } =
      .ok ((Linter.addIfEnabled { rules := "m", fix := "m" } []
              (Linter.mkComplain { rules := "m", fix := "m" } "f" .FORCE_UNFREEZE 0 2 true
                [("rev", "0123456789abcdef0123456789abcdef01234567")])) ++
           [{ Linter.mkComplain { rules := "m", fix := "m" } "f" .MISSING_FROZEN_COMMENT 0
                (commentColOf
                  { repoUrl := "https://x/y",
                    rev := "0123456789abcdef0123456789abcdef01234567",
                    line := 0, column := 2, comment := none }) true
                [("rev", "0123456789abcdef0123456789abcdef01234567")] with fixed := true }],
        yaml_add_eol_comment
          { repoUrl := "https://x/y", rev := "0123456789abcdef0123456789abcdef01234567",
            line := 0, column := 2, comment := none }
          (pyFormat comment_template
            [("rev", "v1.2.0"), ("note", (parseCommentInfo (none : Option CommentTok)).2)])) ∧
    (yaml_add_eol_comment
        { repoUrl := "https://x/y", rev := "0123456789abcdef0123456789abcdef01234567",
          line := 0, column := 2, comment := none }
        (pyFormat comment_template
          [("rev", "v1.2.0"), ("note", (parseCommentInfo (none : Option CommentTok)).2)])).rev
      = "0123456789abcdef0123456789abcdef01234567" :=
  C5_missing_comment_fix { rules := "m", fix := "m" } gitOkTags "f"
    { repoUrl := "https://x/y", rev := "0123456789abcdef0123456789abcdef01234567",
      line := 0, column := 2, comment := none }
    ["v1.2.0"] "v1.2.0" (by decide) rfl (by decide) (by decide) (by decide) rfl (by decide)

/-- Claim C10 witness: a run over one unfrozen entry with only
force-freeze enabled; the collected diagnostic's rule is enabled. -/
theorem C10_witness :
    Linter.enabledRule { rules := "f", fix := "" } Rule.FORCE_FREEZE = true := by
  have h := C10_collected_complains_enabled { rules := "f", fix := "" } gitOkTags "f"
    [{ repoUrl := "https://x/y", rev := "main", line := 0, column := 2, comment := none }]
    ([Linter.mkComplain { rules := "f", fix := "" } "f" .FORCE_FREEZE 0 2 true
        [("rev", "main")]],
     [{ repoUrl := "https://x/y", rev := "main", line := 0, column := 2, comment := none }])
    rfl
  exact h _ (List.mem_singleton.mpr rfl)
